import Mathlib

set_option autoImplicit false
set_option maxHeartbeats 1000000
set_option linter.unusedVariables false

/-!
Shallow embedding of the conversation scripts of this repository:
message dictionaries, the two `filter_messages_for_api` normalizers
(chat_history.py lines 9-53 and function_calling.py lines 173-200), the
conversation driver `chat_with_history` (chat_history.py lines 56-91), the
tool-calling driver `run_conversation_with_tools` (function_calling.py
lines 35-149), the evaluator `evaluate_response` (evaluation.py lines
34-89) and the client factory `get_groq_client` (groq.py lines 8-25).

The remote API, the local clock behind `get_current_datetime` and the
`json.loads` parser are external collaborators; they enter the embedding
as oracle parameters.  Everything else is translated line by line from
the Python source.
-/

/-- A field of a Python dict: the key can be absent, present with value
`None`, or present with a proper value.  The source code distinguishes
`"k" in msg` (presence) from `msg["k"] is not None` (presence with a
non-null value), so both states are represented. -/
inductive PyField (α : Type) where
  | absent : PyField α
  | null : PyField α
  | val : α → PyField α
  deriving DecidableEq

/-- Python `msg.get(k)`: `None` when the key is absent or holds `None`. -/
def PyField.getPy {α : Type} : PyField α → Option α
  | PyField.val a => Option.some a
  | _ => Option.none

/-- Python `"k" in msg`. -/
def PyField.present {α : Type} : PyField α → Bool
  | PyField.absent => false
  | _ => true

/-- Python `"k" in msg and msg[k] is not None`. -/
def PyField.presentNotNull {α : Type} : PyField α → Bool
  | PyField.val _ => true
  | _ => false

/-- Store a possibly-`None` Python value under a key (the key becomes present). -/
def PyField.ofOpt {α : Type} : Option α → PyField α
  | Option.none => PyField.null
  | Option.some a => PyField.val a

/-- The exceptions that can surface in the embedded code.  In the groq SDK,
`RateLimitError` is a subclass of `APIStatusError`, itself a subclass of
`APIError`. -/
inductive PyExc where
  | apiError : String → PyExc
  | rateLimitError : String → PyExc
  | keyError : String → PyExc
  | attributeError : String → PyExc
  | nameError : String → PyExc
  | other : String → PyExc
  deriving DecidableEq

/-- The `function` member of an SDK tool-call object (`tc.function.name`,
`tc.function.arguments`). -/
structure ToolFunction where
  name : String
  arguments : String
  deriving DecidableEq

/-- An SDK tool-call request: `tc.id`, `tc.type`, `tc.function`. -/
structure ToolCall where
  id : String
  type : String
  function : ToolFunction
  deriving DecidableEq

/-- A tool-call entry held inside a history message: either the SDK object
the driver stored (attribute access `tc.id` works), or the plain dict that
function_calling.py's normalizer produces (attribute access on it raises
`AttributeError`). -/
inductive TCVal where
  | obj : ToolCall → TCVal
  | dict : ToolCall → TCVal
  deriving DecidableEq

/-- One conversation turn, the dict shape used throughout the scripts:
keys `role`, `content`, `tool_calls`, `tool_call_id`, `name`. -/
structure Msg where
  role : String
  content : PyField String := PyField.absent
  tool_calls : PyField (List TCVal) := PyField.absent
  tool_call_id : PyField String := PyField.absent
  name : PyField String := PyField.absent
  deriving DecidableEq

/-- A Python `for` loop that builds a list and can raise: the first raise
aborts the whole computation. -/
def mapExc {α β ε : Type} (f : α → Except ε β) : List α → Except ε (List β)
  | [] => Except.ok []
  | x :: xs =>
    match f x with
    | Except.error e => Except.error e
    | Except.ok y =>
      match mapExc f xs with
      | Except.error e => Except.error e
      | Except.ok ys => Except.ok (y :: ys)

/-- chat_history.py lines 48-50: in the output record, default content to
`""` when the role is not `assistant`, the content is `None` and the output
carries no `tool_calls` key. -/
def fix_ch (role : String) (c : PyField String) (tcs : PyField (List TCVal)) : PyField String :=
  if role ≠ "assistant" ∧ c.getPy = Option.none ∧ tcs.present = false then PyField.val ""
  else c

/-- chat_history.py lines 18-19: the `tool_calls` value reaches the
output verbatim when present and non-null, else the key is left out. -/
def normTcs (t : PyField (List TCVal)) : PyField (List TCVal) :=
  if t.presentNotNull = true then t else PyField.absent

/-- One message through chat_history.py's `filter_messages_for_api`
(lines 16-52).  Line 17 always materializes a `content` key from
`msg.get("content")`; lines 18-19 copy a non-null `tool_calls` value
verbatim; lines 20-24 key on a non-null `tool_call_id` and re-read
`msg["content"]` (a `KeyError` when the key is absent); the
`elif` of lines 25-46 only re-assigns `None` to an already-`None`
assistant content, a no-op; lines 48-50 are `fix_ch`.  The output never
carries a `name` key. -/
def filter_msg_ch (msg : Msg) : Except PyExc Msg :=
  let c0 : PyField String := PyField.ofOpt msg.content.getPy
  let tcs : PyField (List TCVal) := normTcs msg.tool_calls
  if msg.tool_call_id.presentNotNull = true then
    match msg.content with
    | PyField.absent => Except.error (PyExc.keyError "content")
    | PyField.null =>
      Except.ok { role := msg.role, content := fix_ch msg.role PyField.null tcs,
                  tool_calls := tcs, tool_call_id := msg.tool_call_id, name := PyField.absent }
    | PyField.val s =>
      Except.ok { role := msg.role, content := fix_ch msg.role (PyField.val s) tcs,
                  tool_calls := tcs, tool_call_id := msg.tool_call_id, name := PyField.absent }
  else
    Except.ok { role := msg.role, content := fix_ch msg.role c0 tcs,
                tool_calls := tcs, tool_call_id := PyField.absent, name := PyField.absent }

/-- chat_history.py lines 9-53. -/
def filter_messages_for_api (messages : List Msg) : Except PyExc (List Msg) :=
  mapExc filter_msg_ch messages

/-- function_calling.py lines 180-190: reshape one tool-call entry to a
plain dict.  On an SDK object the attribute reads succeed; on a dict
(which is what this very normalizer emits) `tc.id` raises
`AttributeError`. -/
def reshape_tc : TCVal → Except PyExc TCVal
  | TCVal.obj tc => Except.ok (TCVal.dict tc)
  | TCVal.dict _ => Except.error (PyExc.attributeError "id")

/-- function_calling.py lines 194-198: the final content fix-ups of the
standalone normalizer.  Note the extra `msg["role"] != "tool"` conjunct:
tool turns never receive the empty-string substitution. -/
def fix_fc (msg : Msg) (c0 : PyField String) (tcs : PyField (List TCVal)) : PyField String :=
  if msg.role ≠ "assistant" ∧ c0.getPy = Option.none ∧ tcs.present = false ∧ msg.role ≠ "tool" then
    PyField.val ""
  else if msg.role = "assistant" ∧ msg.tool_calls.present = true ∧ msg.content.getPy = Option.none then
    PyField.null
  else c0

/-- function_calling.py lines 177-178: content reaches the output only
when present and non-null. -/
def c0fc (c : PyField String) : PyField String :=
  match c with
  | PyField.val s => PyField.val s
  | _ => PyField.absent

/-- One message through function_calling.py's `filter_messages_for_api`
(lines 174-199): content only when present and non-null; `tool_calls`
reshaped entry-wise through `reshape_tc`; for `role == "tool"` the
`tool_call_id` and `name` keys are read unconditionally (a `KeyError`
when absent); then the `fix_fc` content fix-ups. -/
def filter_msg_fc (msg : Msg) : Except PyExc Msg :=
  let c0 : PyField String := c0fc msg.content
  let tcsE : Except PyExc (PyField (List TCVal)) :=
    match msg.tool_calls with
    | PyField.val l =>
      match mapExc reshape_tc l with
      | Except.ok l2 => Except.ok (PyField.val l2)
      | Except.error e => Except.error e
    | _ => Except.ok PyField.absent
  match tcsE with
  | Except.error e => Except.error e
  | Except.ok tcs =>
    if msg.role = "tool" then
      match msg.tool_call_id with
      | PyField.absent => Except.error (PyExc.keyError "tool_call_id")
      | ti =>
        match msg.name with
        | PyField.absent => Except.error (PyExc.keyError "name")
        | nm =>
          Except.ok { role := msg.role, content := fix_fc msg c0 tcs,
                      tool_calls := tcs, tool_call_id := ti, name := nm }
    else
      Except.ok { role := msg.role, content := fix_fc msg c0 tcs,
                  tool_calls := tcs, tool_call_id := PyField.absent, name := PyField.absent }

/-- function_calling.py lines 173-200. -/
def filter_messages_for_api_fc (messages : List Msg) : Except PyExc (List Msg) :=
  mapExc filter_msg_fc messages

/-- An authenticated client handle; its internals are never inspected. -/
inductive Client where
  | mk : Client
  deriving DecidableEq

/-- The single choice's message of a chat completion:
`chat_completion.choices[0].message`. -/
structure ResponseMessage where
  content : Option String
  tool_calls : Option (List ToolCall) := Option.none
  deriving DecidableEq

/-- What one `client.chat.completions.create(...)` call does: either it
returns a response message, or something in the call (transport fault,
rate limit, malformed request, empty choices, ...) raises. -/
inductive ApiOutcome where
  | success : ResponseMessage → ApiOutcome
  | raise : PyExc → ApiOutcome
  deriving DecidableEq

/-- `isinstance(e, groq.APIError)`: `RateLimitError` is a subclass. -/
def isAPIError : PyExc → Bool
  | PyExc.apiError _ => true
  | PyExc.rateLimitError _ => true
  | _ => false

/-- The `except APIError / except RateLimitError / except Exception` chain
as it behaves in chat_history.py, function_calling.py and evaluation.py,
where only `Groq` and `APIError` are imported: an `APIError` (including
its subclass `RateLimitError`) is caught by the first clause and the
function falls through to `return None`; for any other exception, Python
evaluates the unbound name `RateLimitError` in the second clause, which
raises `NameError`, so the `except Exception` clause is never reached and
the `NameError` propagates to the caller. -/
def handleDriverExc (e : PyExc) : Except PyExc Unit :=
  if isAPIError e = true then Except.ok ()
  else Except.error (PyExc.nameError "RateLimitError")

/-- A driver either returns a (possibly null) reply or lets an exception
escape. -/
inductive Outcome where
  | ret : Option String → Outcome
  | exc : PyExc → Outcome
  deriving DecidableEq

/-- Observable effect of one driver invocation: the returned value (or
escaped exception), the conversation list as the caller sees it
afterwards, and how many network calls were attempted. -/
structure ChatRun where
  result : Outcome
  history : List Msg
  calls : Nat
  deriving DecidableEq

/-- The user turn appended by the drivers. -/
def userMsg (q : String) : Msg :=
  { role := "user", content := PyField.val q }

/-- The assistant turn appended by the drivers (content may be `None`). -/
def assistantMsg (c : Option String) : Msg :=
  { role := "assistant", content := PyField.ofOpt c }

/-- function_calling.py lines 70-76: the assistant turn recording the
tool-call intent; the stored `tool_calls` are the SDK objects. -/
def assistantToolMsg (c : Option String) (ts : List ToolCall) : Msg :=
  { role := "assistant", content := PyField.ofOpt c,
    tool_calls := PyField.val (ts.map TCVal.obj) }

/-- chat_history.py lines 56-91.  The normalization at line 70 happens
outside the `try`, so a normalizer exception propagates with the user
turn already appended; API failures go through `handleDriverExc`. -/
def chat_with_history (client : Option Client) (conversation_history : List Msg)
    (new_user_query : String) (api : List Msg → ApiOutcome) : ChatRun :=
  match client with
  | Option.none =>
    { result := Outcome.ret Option.none, history := conversation_history, calls := 0 }
  | Option.some _ =>
    let h1 := conversation_history ++ [userMsg new_user_query]
    match filter_messages_for_api h1 with
    | Except.error e => { result := Outcome.exc e, history := h1, calls := 0 }
    | Except.ok api_ready_messages =>
      match api api_ready_messages with
      | ApiOutcome.success rm =>
        { result := Outcome.ret rm.content,
          history := h1 ++ [assistantMsg rm.content], calls := 1 }
      | ApiOutcome.raise e =>
        match handleDriverExc e with
        | Except.ok _ => { result := Outcome.ret Option.none, history := h1, calls := 1 }
        | Except.error e2 => { result := Outcome.exc e2, history := h1, calls := 1 }

/-- function_calling.py lines 31-33: the static registry; only the key set
is ever consulted before execution. -/
def AVAILABLE_FUNCTIONS : List String := ["get_current_datetime"]

/-- Executing one registered local function: it returns a string or raises
(the string argument of `raise` is `str(e)`). -/
inductive ExecOutcome where
  | ok : String → ExecOutcome
  | raise : String → ExecOutcome
  deriving DecidableEq

/-- function_calling.py lines 78-119: the tool turn appended for one
tool-call request.  In the registry and successful: the function result;
in the registry and raising: `"Error: " + str(e)`; not in the registry:
the unknown-function error string.  No case raises. -/
def processToolCall (execOracle : ToolCall → ExecOutcome) (tool_call : ToolCall) : Msg :=
  if tool_call.function.name ∈ AVAILABLE_FUNCTIONS then
    match execOracle tool_call with
    | ExecOutcome.ok s =>
      { role := "tool", content := PyField.val s,
        tool_call_id := PyField.val tool_call.id,
        name := PyField.val tool_call.function.name }
    | ExecOutcome.raise e =>
      { role := "tool", content := PyField.val ("Error: " ++ e),
        tool_call_id := PyField.val tool_call.id,
        name := PyField.val tool_call.function.name }
  else
    { role := "tool",
      content := PyField.val ("Error: Unknown function \x27" ++ tool_call.function.name ++ "\x27"),
      tool_call_id := PyField.val tool_call.id,
      name := PyField.val tool_call.function.name }

/-- Python truthiness of `response_message.tool_calls`: `None` and the
empty list are falsy. -/
def pyTruthy : Option (List ToolCall) → Bool
  | Option.some (_ :: _) => true
  | _ => false

/-- function_calling.py lines 35-149.  `apiAuto` is the first call
(`tool_choice="auto"`, with the tool schema), `apiNone` the second
(`tool_choice="none"`).  The first normalization (line 47) is outside the
`try`; the second (line 123) and both API calls are inside it, so their
exceptions go through `handleDriverExc`. -/
def run_conversation_with_tools (client : Option Client) (conversation_history : List Msg)
    (new_user_query : String) (apiAuto apiNone : List Msg → ApiOutcome)
    (execOracle : ToolCall → ExecOutcome) : ChatRun :=
  match client with
  | Option.none =>
    { result := Outcome.ret Option.none, history := conversation_history, calls := 0 }
  | Option.some _ =>
    let h1 := conversation_history ++ [userMsg new_user_query]
    match filter_messages_for_api_fc h1 with
    | Except.error e => { result := Outcome.exc e, history := h1, calls := 0 }
    | Except.ok m1 =>
      match apiAuto m1 with
      | ApiOutcome.raise e =>
        match handleDriverExc e with
        | Except.ok _ => { result := Outcome.ret Option.none, history := h1, calls := 1 }
        | Except.error e2 => { result := Outcome.exc e2, history := h1, calls := 1 }
      | ApiOutcome.success rm =>
        if pyTruthy rm.tool_calls = true then
          let ts := rm.tool_calls.getD []
          let h3 := h1 ++ [assistantToolMsg rm.content ts] ++ ts.map (processToolCall execOracle)
          match filter_messages_for_api_fc h3 with
          | Except.error e =>
            match handleDriverExc e with
            | Except.ok _ => { result := Outcome.ret Option.none, history := h3, calls := 1 }
            | Except.error e2 => { result := Outcome.exc e2, history := h3, calls := 1 }
          | Except.ok m2 =>
            match apiNone m2 with
            | ApiOutcome.raise e =>
              match handleDriverExc e with
              | Except.ok _ => { result := Outcome.ret Option.none, history := h3, calls := 2 }
              | Except.error e2 => { result := Outcome.exc e2, history := h3, calls := 2 }
            | ApiOutcome.success rm2 =>
              { result := Outcome.ret rm2.content,
                history := h3 ++ [assistantMsg rm2.content], calls := 2 }
        else
          { result := Outcome.ret rm.content,
            history := h1 ++ [assistantMsg rm.content], calls := 1 }

/-- First index of a character, or `none`: the recursion behind Python's
`str.find`. -/
def findIdxOpt (c : Char) : List Char → Option Nat
  | [] => Option.none
  | x :: xs => if x = c then Option.some 0 else (findIdxOpt c xs).map (fun i => i + 1)

/-- Last index of a character, or `none`: the recursion behind Python's
`str.rfind`. -/
def rfindIdxOpt (c : Char) : List Char → Option Nat
  | [] => Option.none
  | x :: xs =>
    match rfindIdxOpt c xs with
    | Option.some i => Option.some (i + 1)
    | Option.none => if x = c then Option.some 0 else Option.none

/-- Python `s.find(c)`: first index or `-1`. -/
def pyFind (cs : List Char) (c : Char) : Int :=
  match findIdxOpt c cs with
  | Option.none => -1
  | Option.some i => (i : Int)

/-- Python `s.rfind(c)`: last index or `-1`. -/
def pyRFind (cs : List Char) (c : Char) : Int :=
  match rfindIdxOpt c cs with
  | Option.none => -1
  | Option.some i => (i : Int)

/-- Python `s[a:b]` for the non-negative indices used in evaluation.py. -/
def pySlice (cs : List Char) (a b : Int) : List Char :=
  (cs.take b.toNat).drop a.toNat

/-- What `evaluate_response` hands back on its normal paths: `None`
(null reply), the parsed JSON object, or the error dict
`{"error": ..., "raw_response": ...}`. -/
inductive EvalResult (J : Type) where
  | nullReply : EvalResult J
  | parsed : J → EvalResult J
  | parseFailure : String → String → EvalResult J
  deriving DecidableEq

/-- evaluation.py lines 65-81: scan for the first `\x7b` and the last
`\x7d`, slice inclusively, and parse.  `jl` is the external `json.loads`,
with `Option.none` standing for `json.JSONDecodeError`, the only
exception `json.loads` raises on string input and the one the inner
`except` catches. -/
def parse_evaluation {J : Type} (jl : String → Option J) (evaluation_content : String) :
    EvalResult J :=
  let cs := evaluation_content.data
  let json_start : Int := pyFind cs '\x7b'
  let json_end : Int := pyRFind cs '\x7d' + 1
  if json_start ≠ -1 ∧ json_end ≠ 0 ∧ json_end > json_start then
    let json_string : String := String.mk (pySlice cs json_start json_end)
    match jl json_string with
    | Option.some v => EvalResult.parsed v
    | Option.none => EvalResult.parseFailure "Failed to parse JSON" evaluation_content
  else
    EvalResult.parseFailure "Failed to parse JSON, block not found" evaluation_content

/-- A driver return or an escaped exception, for the evaluator. -/
inductive EvalOut (J : Type) where
  | ret : EvalResult J → EvalOut J
  | exc : PyExc → EvalOut J
  deriving DecidableEq

/-- Observable effect of one evaluator invocation. -/
structure EvalRun (J : Type) where
  result : EvalOut J
  calls : Nat
  deriving DecidableEq

/-- evaluation.py lines 34-89.  A `None` response content makes line 67's
`evaluation_content.find` raise `AttributeError`, which the broken
handler chain converts into a propagating `NameError`; API failures go
through `handleDriverExc`; otherwise the parse step runs and its result
is returned. -/
def evaluate_response {J : Type} (client : Option Client) (user_query : String)
    (assistant_response : String) (api : ApiOutcome) (jl : String → Option J) : EvalRun J :=
  match client with
  | Option.none => { result := EvalOut.ret EvalResult.nullReply, calls := 0 }
  | Option.some _ =>
    match api with
    | ApiOutcome.raise e =>
      match handleDriverExc e with
      | Except.ok _ => { result := EvalOut.ret EvalResult.nullReply, calls := 1 }
      | Except.error e2 => { result := EvalOut.exc e2, calls := 1 }
    | ApiOutcome.success rm =>
      match rm.content with
      | Option.none =>
        match handleDriverExc (PyExc.attributeError "find") with
        | Except.ok _ => { result := EvalOut.ret EvalResult.nullReply, calls := 1 }
        | Except.error e2 => { result := EvalOut.exc e2, calls := 1 }
      | Option.some evaluation_content =>
        { result := EvalOut.ret (parse_evaluation jl evaluation_content), calls := 1 }

/-- groq.py lines 8-25: `os.environ.get` yields `None` when the variable
is missing; `if not api_key` also rejects the empty string; construction
failures are caught by `except Exception` and yield `None`. -/
def get_groq_client (env_GROQ_API_KEY : Option String)
    (groqConstructor : String → Except PyExc Client) : Option Client :=
  match env_GROQ_API_KEY with
  | Option.none => Option.none
  | Option.some api_key =>
    if api_key = "" then Option.none
    else
      match groqConstructor api_key with
      | Except.ok client => Option.some client
      | Except.error _ => Option.none

/-!  Claim theorems. -/

/-- C1: the claim says every failure surfaced by the remote call —
including arbitrary non-`APIError` exceptions — is caught and converted
to a null reply.  Evaluating the three drivers at the failing input (an
API call raising an exception that is not a groq `APIError`) shows the
code instead lets a `NameError` escape: the second `except` clause names
`RateLimitError`, which is never imported in chat_history.py,
function_calling.py or evaluation.py, so the `except Exception` clause is
unreachable and the caller sees `NameError`, with the dangling user turn
still appended. -/
theorem C1_nonAPIError_escapes_as_NameError :
    (chat_with_history (Option.some Client.mk) [] "hi"
        (fun _ => ApiOutcome.raise (PyExc.other "boom"))) =
      { result := Outcome.exc (PyExc.nameError "RateLimitError"),
        history := [userMsg "hi"], calls := 1 } ∧
    (run_conversation_with_tools (Option.some Client.mk) [] "hi"
        (fun _ => ApiOutcome.raise (PyExc.other "boom"))
        (fun _ => ApiOutcome.raise (PyExc.other "boom"))
        (fun _ => ExecOutcome.ok "t")) =
      { result := Outcome.exc (PyExc.nameError "RateLimitError"),
        history := [userMsg "hi"], calls := 1 } ∧
    (@evaluate_response Unit (Option.some Client.mk) "q" "r"
        (ApiOutcome.raise (PyExc.other "boom")) (fun _ => Option.none)) =
      { result := EvalOut.exc (PyExc.nameError "RateLimitError"), calls := 1 } := by
  refine ⟨?_, ?_, ?_⟩ <;> rfl

/-- C2 counterexample: when the API call succeeds with a `None` message
content, `chat_with_history` returns a null reply *and* the conversation
grows by exactly 2, contradicting the claimed dichotomy (null reply ⇒
history unchanged or longer by only the user turn). -/
theorem C2_counterexample :
    (chat_with_history (Option.some Client.mk) [] "hi"
        (fun _ => ApiOutcome.success { content := Option.none })).result
      = Outcome.ret Option.none ∧
    (chat_with_history (Option.some Client.mk) [] "hi"
        (fun _ => ApiOutcome.success { content := Option.none })).history.length = 2 := by
  exact ⟨rfl, rfl⟩

/-- C2 amended: `chat_with_history` either leaves the history unchanged
and returns null (no client), or extends it by exactly the user turn and
returns null or lets an exception escape (normalization or API failure),
or extends it by exactly the user turn followed by an assistant turn and
returns that assistant turn's (possibly null) content. -/
theorem C2_amended (client : Option Client) (h : List Msg) (q : String)
    (api : List Msg → ApiOutcome) :
    ((chat_with_history client h q api).history = h ∧
      (chat_with_history client h q api).result = Outcome.ret Option.none ∧
      (chat_with_history client h q api).calls = 0)
    ∨ ((chat_with_history client h q api).history = h ++ [userMsg q] ∧
      ((chat_with_history client h q api).result = Outcome.ret Option.none ∨
       ∃ e, (chat_with_history client h q api).result = Outcome.exc e))
    ∨ (∃ r, (chat_with_history client h q api).result = Outcome.ret r ∧
      (chat_with_history client h q api).history = h ++ [userMsg q, assistantMsg r]) := by
  rcases client with _ | c
  · exact Or.inl ⟨rfl, rfl, rfl⟩
  · rcases hf : filter_messages_for_api (h ++ [userMsg q]) with e | m
    · refine Or.inr (Or.inl ⟨?_, Or.inr ⟨e, ?_⟩⟩) <;>
        simp [chat_with_history, hf]
    · rcases ha : api m with rm | e
      · refine Or.inr (Or.inr ⟨rm.content, ?_, ?_⟩) <;>
          simp [chat_with_history, hf, ha]
      · rcases he : handleDriverExc e with e2 | u
        · refine Or.inr (Or.inl ⟨?_, Or.inr ⟨e2, ?_⟩⟩) <;>
            simp [chat_with_history, hf, ha, he]
        · refine Or.inr (Or.inl ⟨?_, Or.inl ?_⟩) <;>
            simp [chat_with_history, hf, ha, he]

/-- C9: with the credential environment variable missing the client
factory returns `None`, and each driver invoked with `None` returns a
null reply immediately: no network call is attempted (for any oracle) and
the conversation history is returned unmodified. -/
theorem C9_missing_credential (J : Type) (construct : String → Except PyExc Client)
    (h : List Msg) (q uq ar : String) (api apiAuto apiNone : List Msg → ApiOutcome)
    (apiE : ApiOutcome) (o : ToolCall → ExecOutcome) (jl : String → Option J) :
    get_groq_client Option.none construct = Option.none ∧
    chat_with_history Option.none h q api =
      { result := Outcome.ret Option.none, history := h, calls := 0 } ∧
    run_conversation_with_tools Option.none h q apiAuto apiNone o =
      { result := Outcome.ret Option.none, history := h, calls := 0 } ∧
    evaluate_response Option.none uq ar apiE jl =
      { result := EvalOut.ret EvalResult.nullReply, calls := 0 } :=
  ⟨rfl, rfl, rfl, rfl⟩

/-- Appending loops: a raising list-building loop over a concatenation. -/
theorem mapExc_append {α β ε : Type} (f : α → Except ε β) (xs ys : List α)
    (rs ss : List β) (hx : mapExc f xs = Except.ok rs) (hy : mapExc f ys = Except.ok ss) :
    mapExc f (xs ++ ys) = Except.ok (rs ++ ss) := by
  induction xs generalizing rs with
  | nil =>
    simp only [mapExc, Except.ok.injEq] at hx
    subst hx
    simpa using hy
  | cons x xt ih =>
    simp only [mapExc] at hx
    rcases hfx : f x with e | y <;> rw [hfx] at hx
    · exact absurd hx (by simp)
    · rcases hxt : mapExc f xt with e | rt <;> rw [hxt] at hx
      · exact absurd hx (by simp)
      · simp only [Except.ok.injEq] at hx
        subst hx
        rw [List.cons_append, mapExc, hfx, ih rt hxt]
        simp

/-- A loop whose body succeeds and returns its input unchanged on every
element of the list succeeds on the whole list and returns it unchanged. -/
theorem mapExc_fixed {α ε : Type} (f : α → Except ε α) (xs : List α)
    (hfix : ∀ x ∈ xs, f x = Except.ok x) : mapExc f xs = Except.ok xs := by
  induction xs with
  | nil => rfl
  | cons x xt ih =>
    rw [mapExc, hfix x (by simp), ih (fun y hy => hfix y (by simp [hy]))]

/-- Reshaping a list of SDK tool-call objects succeeds and yields the
corresponding dicts. -/
theorem mapExc_reshape_objs (ts : List ToolCall) :
    mapExc reshape_tc (ts.map TCVal.obj) = Except.ok (ts.map TCVal.dict) := by
  induction ts with
  | nil => rfl
  | cons t tt ih => simp [mapExc, reshape_tc, ih]

/-- The wire record the function_calling normalizer produces for the
assistant-with-tool-calls turn. -/
def wireAssistantToolMsg (c : Option String) (ts : List ToolCall) : Msg :=
  { role := "assistant",
    content := (match c with
                | Option.none => PyField.null
                | Option.some s => PyField.val s),
    tool_calls := PyField.val (ts.map TCVal.dict),
    tool_call_id := PyField.absent, name := PyField.absent }

/-- The assistant-with-tool-calls turn the driver appends passes the
function_calling normalizer. -/
theorem filter_msg_fc_assistantToolMsg (c : Option String) (ts : List ToolCall) :
    filter_msg_fc (assistantToolMsg c ts) = Except.ok (wireAssistantToolMsg c ts) := by
  cases c <;>
    simp [filter_msg_fc, assistantToolMsg, wireAssistantToolMsg, mapExc_reshape_objs,
          fix_fc, c0fc, PyField.ofOpt, PyField.getPy, PyField.present]

/-- Tool turns produced by the tool loop are fixed points of the
function_calling normalizer. -/
theorem filter_msg_fc_processToolCall (o : ToolCall → ExecOutcome) (tc : ToolCall) :
    filter_msg_fc (processToolCall o tc) = Except.ok (processToolCall o tc) := by
  unfold processToolCall
  split
  · rcases o tc with s | e <;>
      simp [filter_msg_fc, fix_fc, c0fc, PyField.getPy, PyField.present]
  · simp [filter_msg_fc, fix_fc, c0fc, PyField.getPy, PyField.present]

/-- If the first normalization of the history succeeded, the second one —
over the history extended by the assistant tool-call turn and the tool
turns — succeeds as well. -/
theorem filter_fc_extended (h1 m1 : List Msg) (cc : Option String)
    (ts : List ToolCall) (o : ToolCall → ExecOutcome)
    (hf : filter_messages_for_api_fc h1 = Except.ok m1) :
    filter_messages_for_api_fc
        (h1 ++ [assistantToolMsg cc ts] ++ ts.map (processToolCall o)) =
      Except.ok ((m1 ++ [wireAssistantToolMsg cc ts])
                 ++ ts.map (processToolCall o)) := by
  apply mapExc_append
  · apply mapExc_append
    · exact hf
    · rw [mapExc, filter_msg_fc_assistantToolMsg]
      rfl
  · exact mapExc_fixed _ _ (by
      intro x hx
      rcases List.mem_map.mp hx with ⟨tc, _, rfl⟩
      exact filter_msg_fc_processToolCall o tc)

/-- Characterization of the tool-calling driver when the first call
succeeds and requests at least one tool call. -/
theorem run_tools_eq_toolcase (c : Client) (h : List Msg) (q : String)
    (apiAuto apiNone : List Msg → ApiOutcome) (o : ToolCall → ExecOutcome)
    (m1 : List Msg) (rm : ResponseMessage) (t : ToolCall) (ts' : List ToolCall)
    (hf : filter_messages_for_api_fc (h ++ [userMsg q]) = Except.ok m1)
    (ha : apiAuto m1 = ApiOutcome.success rm)
    (hts : rm.tool_calls = Option.some (t :: ts')) :
    run_conversation_with_tools (Option.some c) h q apiAuto apiNone o =
      (match apiNone ((m1 ++ [wireAssistantToolMsg rm.content (t :: ts')])
                      ++ (t :: ts').map (processToolCall o)) with
       | ApiOutcome.success rm2 =>
         { result := Outcome.ret rm2.content,
           history := ((h ++ [userMsg q]) ++ [assistantToolMsg rm.content (t :: ts')]
                       ++ (t :: ts').map (processToolCall o)) ++ [assistantMsg rm2.content],
           calls := 2 }
       | ApiOutcome.raise e =>
         match handleDriverExc e with
         | Except.ok _ =>
           { result := Outcome.ret Option.none,
             history := (h ++ [userMsg q]) ++ [assistantToolMsg rm.content (t :: ts')]
                        ++ (t :: ts').map (processToolCall o), calls := 2 }
         | Except.error e2 =>
           { result := Outcome.exc e2,
             history := (h ++ [userMsg q]) ++ [assistantToolMsg rm.content (t :: ts')]
                        ++ (t :: ts').map (processToolCall o), calls := 2 }) := by
  unfold run_conversation_with_tools
  simp only [hf, ha, hts, Option.getD_some, pyTruthy, if_true]
  simp only [filter_fc_extended _ _ _ _ _ hf]
  cases apiNone ((m1 ++ [wireAssistantToolMsg rm.content (t :: ts')])
      ++ (t :: ts').map (processToolCall o)) with
  | success rm2 => rfl
  | raise e => cases handleDriverExc e <;> rfl

/-- Characterization of the tool-calling driver when the first call
succeeds and requests no tool call. -/
theorem run_tools_eq_notool (c : Client) (h : List Msg) (q : String)
    (apiAuto apiNone : List Msg → ApiOutcome) (o : ToolCall → ExecOutcome)
    (m1 : List Msg) (rm : ResponseMessage)
    (hf : filter_messages_for_api_fc (h ++ [userMsg q]) = Except.ok m1)
    (ha : apiAuto m1 = ApiOutcome.success rm)
    (hts : pyTruthy rm.tool_calls = false) :
    run_conversation_with_tools (Option.some c) h q apiAuto apiNone o =
      { result := Outcome.ret rm.content,
        history := (h ++ [userMsg q]) ++ [assistantMsg rm.content], calls := 1 } := by
  unfold run_conversation_with_tools
  simp only [hf, ha, hts]
  simp

/-- Concrete tool-call request for the registered function. -/
def wTC : ToolCall :=
  { id := "call1", type := "function",
    function := { name := "get_current_datetime", arguments := "" } }

/-- Concrete tool-call request for an unknown function. -/
def wTCunknown : ToolCall :=
  { id := "call2", type := "function",
    function := { name := "delete_universe", arguments := "" } }

/-- Oracle: first call requests one tool call. -/
def wAuto : List Msg → ApiOutcome :=
  fun _ => ApiOutcome.success { content := Option.none, tool_calls := Option.some [wTC] }

/-- Oracle: first call answers directly, no tool call. -/
def wAutoPlain : List Msg → ApiOutcome :=
  fun _ => ApiOutcome.success { content := Option.some "hello", tool_calls := Option.none }

/-- Oracle: second call answers with a final text. -/
def wNone : List Msg → ApiOutcome :=
  fun _ => ApiOutcome.success { content := Option.some "done", tool_calls := Option.none }

/-- Oracle: local function execution succeeds with a timestamp. -/
def wExec : ToolCall → ExecOutcome := fun _ => ExecOutcome.ok "2025-01-01 00:00:00"

/-- C4: the tool-calling driver never attempts more than two network
calls; when the first call succeeds, exactly one network call is made if
its response carries no tool-call request and exactly two if it carries
one or more, however many requests it carries. -/
theorem C4_network_call_count (client : Option Client) (h : List Msg) (q : String)
    (apiAuto apiNone : List Msg → ApiOutcome) (o : ToolCall → ExecOutcome)
    (c : Client) (m1 : List Msg) (rm : ResponseMessage) :
    (run_conversation_with_tools client h q apiAuto apiNone o).calls ≤ 2 ∧
    (client = Option.some c →
     filter_messages_for_api_fc (h ++ [userMsg q]) = Except.ok m1 →
     apiAuto m1 = ApiOutcome.success rm →
     ((pyTruthy rm.tool_calls = false →
        (run_conversation_with_tools client h q apiAuto apiNone o).calls = 1) ∧
      (pyTruthy rm.tool_calls = true →
        (run_conversation_with_tools client h q apiAuto apiNone o).calls = 2))) := by
  constructor
  · rcases client with _ | c0
    · exact Nat.zero_le 2
    · unfold run_conversation_with_tools
      dsimp only
      repeat' split
      all_goals exact Nat.le_of_ble_eq_true rfl
  · rintro rfl hf ha
    constructor
    · intro hfalse
      rw [run_tools_eq_notool c h q apiAuto apiNone o m1 rm hf ha hfalse]
    · intro htrue
      rcases hts : rm.tool_calls with _ | (_ | ⟨t, ts'⟩)
      · rw [hts] at htrue
        simp [pyTruthy] at htrue
      · rw [hts] at htrue
        simp [pyTruthy] at htrue
      · rw [run_tools_eq_toolcase c h q apiAuto apiNone o m1 rm t ts' hf ha hts]
        cases apiNone ((m1 ++ [wireAssistantToolMsg rm.content (t :: ts')])
            ++ (t :: ts').map (processToolCall o)) with
        | success rm2 => rfl
        | raise e2 => rcases hE : handleDriverExc e2 with e3 | u <;> simp [hE]

/-- C4 witness: one concrete run with no tool call makes one network
call; one concrete run with one tool call makes two. -/
theorem C4_network_call_count_witness :
    (run_conversation_with_tools (Option.some Client.mk) [] "hi" wAutoPlain wNone wExec).calls = 1 ∧
    (run_conversation_with_tools (Option.some Client.mk) [] "hi" wAuto wNone wExec).calls = 2 :=
  ⟨((C4_network_call_count (Option.some Client.mk) [] "hi" wAutoPlain wNone wExec Client.mk
      [userMsg "hi"] { content := Option.some "hello", tool_calls := Option.none }).2
      rfl rfl rfl).1 rfl,
   ((C4_network_call_count (Option.some Client.mk) [] "hi" wAuto wNone wExec Client.mk
      [userMsg "hi"] { content := Option.none, tool_calls := Option.some [wTC] }).2
      rfl rfl rfl).2 rfl⟩

/-- C5: for every tool-call request in a successful first response,
`run_conversation_with_tools` appends exactly one tool turn per request,
in the order received; an appended turn carries `role = "tool"`, the
request's correlation id and function name, and its content is the
function result when the name is registered and execution succeeds, an
error description when execution raises (nothing propagates), and an
unknown-function error string when the name is not registered; in every
case the second API call is still attempted. -/
theorem C5_tool_turn_per_request (c : Client) (h : List Msg) (q : String)
    (apiAuto apiNone : List Msg → ApiOutcome) (o : ToolCall → ExecOutcome)
    (m1 : List Msg) (rm : ResponseMessage) (t : ToolCall) (ts' : List ToolCall)
    (tc : ToolCall)
    (hf : filter_messages_for_api_fc (h ++ [userMsg q]) = Except.ok m1)
    (ha : apiAuto m1 = ApiOutcome.success rm)
    (hts : rm.tool_calls = Option.some (t :: ts')) :
    (run_conversation_with_tools (Option.some c) h q apiAuto apiNone o).calls = 2 ∧
    (∃ tail,
      (run_conversation_with_tools (Option.some c) h q apiAuto apiNone o).history
        = (h ++ [userMsg q]) ++ [assistantToolMsg rm.content (t :: ts')]
            ++ (t :: ts').map (processToolCall o) ++ tail) ∧
    ((processToolCall o tc).role = "tool" ∧
     (processToolCall o tc).tool_call_id = PyField.val tc.id ∧
     (processToolCall o tc).name = PyField.val tc.function.name ∧
     ((tc.function.name ∈ AVAILABLE_FUNCTIONS ∧
        ∃ s, o tc = ExecOutcome.ok s ∧ (processToolCall o tc).content = PyField.val s) ∨
      (tc.function.name ∈ AVAILABLE_FUNCTIONS ∧
        ∃ e, o tc = ExecOutcome.raise e ∧
          (processToolCall o tc).content = PyField.val ("Error: " ++ e)) ∨
      (tc.function.name ∉ AVAILABLE_FUNCTIONS ∧
        (processToolCall o tc).content
          = PyField.val ("Error: Unknown function \x27" ++ tc.function.name ++ "\x27")))) := by
  refine ⟨?_, ?_, ?_⟩
  · rw [run_tools_eq_toolcase c h q apiAuto apiNone o m1 rm t ts' hf ha hts]
    cases apiNone ((m1 ++ [wireAssistantToolMsg rm.content (t :: ts')])
        ++ (t :: ts').map (processToolCall o)) with
    | success rm2 => rfl
    | raise e2 => rcases hE : handleDriverExc e2 with e3 | u <;> simp [hE]
  · rw [run_tools_eq_toolcase c h q apiAuto apiNone o m1 rm t ts' hf ha hts]
    cases apiNone ((m1 ++ [wireAssistantToolMsg rm.content (t :: ts')])
        ++ (t :: ts').map (processToolCall o)) with
    | success rm2 => exact ⟨[assistantMsg rm2.content], rfl⟩
    | raise e2 =>
      rcases hE : handleDriverExc e2 with e3 | u <;>
        exact ⟨[], by simp [hE]⟩
  · by_cases hm : tc.function.name ∈ AVAILABLE_FUNCTIONS
    · rcases ho : o tc with s | e
      · refine ⟨?_, ?_, ?_, Or.inl ⟨hm, s, rfl, ?_⟩⟩ <;>
          simp [processToolCall, hm, ho]
      · refine ⟨?_, ?_, ?_, Or.inr (Or.inl ⟨hm, e, rfl, ?_⟩)⟩ <;>
          simp [processToolCall, hm, ho]
    · refine ⟨?_, ?_, ?_, Or.inr (Or.inr ⟨hm, ?_⟩)⟩ <;>
        simp [processToolCall, hm]

/-- C5 witness: a concrete run whose first response requests one
registered tool call attempts the second network call. -/
theorem C5_tool_turn_per_request_witness :
    (run_conversation_with_tools (Option.some Client.mk) [] "hi" wAuto wNone wExec).calls = 2 :=
  (C5_tool_turn_per_request Client.mk [] "hi" wAuto wNone wExec
    [userMsg "hi"] { content := Option.none, tool_calls := Option.some [wTC] }
    wTC [] wTCunknown rfl rfl rfl).1

/-- C10: when the first response requests n ≥ 1 tool calls and both API
calls succeed, the conversation grows by exactly 3 + n turns, in the
order user turn, assistant turn carrying the tool calls, one tool turn
per request in the order received, final assistant turn, and the reply is
the final assistant content; when no tool call is requested the
conversation grows by exactly 2 turns (user then assistant). -/
theorem C10_history_growth (c : Client) (h : List Msg) (q : String)
    (apiAuto apiNone : List Msg → ApiOutcome) (o : ToolCall → ExecOutcome)
    (m1 : List Msg) (rm : ResponseMessage) (t : ToolCall) (ts' : List ToolCall)
    (rm2 : ResponseMessage)
    (hf : filter_messages_for_api_fc (h ++ [userMsg q]) = Except.ok m1)
    (ha : apiAuto m1 = ApiOutcome.success rm) :
    (rm.tool_calls = Option.some (t :: ts') →
     apiNone ((m1 ++ [wireAssistantToolMsg rm.content (t :: ts')])
              ++ (t :: ts').map (processToolCall o)) = ApiOutcome.success rm2 →
     (run_conversation_with_tools (Option.some c) h q apiAuto apiNone o).result
         = Outcome.ret rm2.content ∧
     (run_conversation_with_tools (Option.some c) h q apiAuto apiNone o).history
         = h ++ [userMsg q, assistantToolMsg rm.content (t :: ts')]
             ++ (t :: ts').map (processToolCall o) ++ [assistantMsg rm2.content] ∧
     (run_conversation_with_tools (Option.some c) h q apiAuto apiNone o).history.length
         = h.length + (3 + (t :: ts').length)) ∧
    (pyTruthy rm.tool_calls = false →
     (run_conversation_with_tools (Option.some c) h q apiAuto apiNone o).result
         = Outcome.ret rm.content ∧
     (run_conversation_with_tools (Option.some c) h q apiAuto apiNone o).history
         = h ++ [userMsg q, assistantMsg rm.content]) := by
  constructor
  · intro hts h2
    rw [run_tools_eq_toolcase c h q apiAuto apiNone o m1 rm t ts' hf ha hts]
    rw [h2]
    refine ⟨rfl, ?_, ?_⟩
    · simp
    · simp
      omega
  · intro hfalse
    rw [run_tools_eq_notool c h q apiAuto apiNone o m1 rm hf ha hfalse]
    exact ⟨rfl, by simp⟩

/-- C10 witness: concrete runs exercising both branches — one registered
tool call (growth by 4) and no tool call (growth by 2). -/
theorem C10_history_growth_witness :
    (run_conversation_with_tools (Option.some Client.mk) [] "hi" wAuto wNone wExec).history.length
        = 4 ∧
    (run_conversation_with_tools (Option.some Client.mk) [] "hi" wAutoPlain wNone wExec).history
        = [userMsg "hi", assistantMsg (Option.some "hello")] :=
  ⟨((C10_history_growth Client.mk [] "hi" wAuto wNone wExec
      [userMsg "hi"] { content := Option.none, tool_calls := Option.some [wTC] }
      wTC [] { content := Option.some "done", tool_calls := Option.none }
      rfl rfl).1 rfl rfl).2.2,
   ((C10_history_growth Client.mk [] "hi" wAutoPlain wNone wExec
      [userMsg "hi"] { content := Option.some "hello", tool_calls := Option.none }
      wTC [] { content := Option.some "done", tool_calls := Option.none }
      rfl rfl).2 rfl).2⟩

/-- A well-formed tool turn as the tool loop appends it. -/
def wToolTurn : Msg :=
  { role := "tool", content := PyField.val "2025-01-01 00:00:00",
    tool_call_id := PyField.val "call1",
    name := PyField.val "get_current_datetime" }

/-- C6 counterexample: the chat_history implementation of the message
normalizer drops the `name` field of a tool turn — its output record for
a concrete tool turn carries `tool_call_id` but no `name` key, refuting
the claim that the normalizer's output includes both. -/
theorem C6_counterexample :
    filter_messages_for_api [wToolTurn]
      = Except.ok [{ role := "tool", content := PyField.val "2025-01-01 00:00:00",
                     tool_calls := PyField.absent,
                     tool_call_id := PyField.val "call1",
                     name := PyField.absent }] ∧
    PyField.absent ≠ PyField.val "get_current_datetime" := by
  exact ⟨rfl, by decide⟩

/-- C6 amended: for a tool turn carrying `tool_call_id`, `name` and a
content string, the function_calling normalizer's output includes both
`tool_call_id` and `name` and preserves the content; the chat_history
normalizer's output includes `tool_call_id` and preserves the content but
omits the `name` key. -/
theorem C6_tool_turn_fields (msg : Msg) (ti s n : String)
    (hrole : msg.role = "tool")
    (hti : msg.tool_call_id = PyField.val ti)
    (hn : msg.name = PyField.val n)
    (hc : msg.content = PyField.val s)
    (htc : msg.tool_calls = PyField.absent) :
    filter_msg_fc msg = Except.ok
      { role := "tool", content := PyField.val s, tool_calls := PyField.absent,
        tool_call_id := PyField.val ti, name := PyField.val n } ∧
    filter_msg_ch msg = Except.ok
      { role := "tool", content := PyField.val s, tool_calls := PyField.absent,
        tool_call_id := PyField.val ti, name := PyField.absent } := by
  obtain ⟨r, c, tcs, tid, nm⟩ := msg
  simp only at hrole hti hn hc htc
  subst hrole hti hn hc htc
  constructor <;>
    simp [filter_msg_fc, filter_msg_ch, fix_fc, c0fc, fix_ch, normTcs, PyField.present,
          PyField.presentNotNull, PyField.getPy, PyField.ofOpt, mapExc]

/-- C6 witness: the amended statement evaluated at a concrete tool turn. -/
theorem C6_tool_turn_fields_witness :
    filter_msg_fc wToolTurn = Except.ok
      { role := "tool", content := PyField.val "2025-01-01 00:00:00",
        tool_calls := PyField.absent,
        tool_call_id := PyField.val "call1",
        name := PyField.val "get_current_datetime" } :=
  (C6_tool_turn_fields wToolTurn "call1" "2025-01-01 00:00:00" "get_current_datetime"
    rfl rfl rfl rfl rfl).1

/-- A tool turn whose content is `None`. -/
def wToolTurnNullContent : Msg :=
  { role := "tool", content := PyField.null, tool_call_id := PyField.val "call1",
    name := PyField.val "get_current_datetime" }

/-- C8 counterexample: the function_calling implementation of the
normalizer does not substitute an empty string for a tool turn with
`None` content — the output record simply has no content key — so "tool
roles never carry null content" is not achieved by empty-string
substitution in that implementation. -/
theorem C8_counterexample :
    filter_messages_for_api_fc [wToolTurnNullContent]
      = Except.ok [{ role := "tool", content := PyField.absent,
                     tool_calls := PyField.absent,
                     tool_call_id := PyField.val "call1",
                     name := PyField.val "get_current_datetime" }] ∧
    (PyField.absent : PyField String) ≠ PyField.val "" := by
  exact ⟨rfl, by decide⟩

/-- C8 amended: for a turn with absent or `None` content and no
`tool_calls` key, the chat_history normalizer substitutes an empty string
for every non-assistant role, tool turns included; the function_calling
normalizer substitutes only when the role is also not "tool", and emits a
tool turn with absent/None content without any content key. -/
theorem C8_empty_string_substitution (msg : Msg) (ti n : String)
    (hget : msg.content.getPy = Option.none)
    (htc : msg.tool_calls = PyField.absent)
    (hrole : msg.role ≠ "assistant") :
    (msg.tool_call_id = PyField.absent →
      filter_msg_ch msg = Except.ok
        { role := msg.role, content := PyField.val "", tool_calls := PyField.absent,
          tool_call_id := PyField.absent, name := PyField.absent }) ∧
    (msg.tool_call_id = PyField.val ti → msg.content = PyField.null →
      filter_msg_ch msg = Except.ok
        { role := msg.role, content := PyField.val "", tool_calls := PyField.absent,
          tool_call_id := PyField.val ti, name := PyField.absent }) ∧
    (msg.role ≠ "tool" → msg.tool_call_id = PyField.absent → msg.name = PyField.absent →
      filter_msg_fc msg = Except.ok
        { role := msg.role, content := PyField.val "", tool_calls := PyField.absent,
          tool_call_id := PyField.absent, name := PyField.absent }) ∧
    (msg.role = "tool" → msg.tool_call_id = PyField.val ti → msg.name = PyField.val n →
      filter_msg_fc msg = Except.ok
        { role := "tool", content := PyField.absent, tool_calls := PyField.absent,
          tool_call_id := PyField.val ti, name := PyField.val n }) := by
  obtain ⟨r, c, tcs, tid, nm⟩ := msg
  simp only at hget htc hrole ⊢
  subst htc
  refine ⟨?_, ?_, ?_, ?_⟩
  · rintro rfl
    rcases c with _ | _ | s
    · simp [filter_msg_ch, fix_ch, normTcs, PyField.presentNotNull, PyField.getPy,
            PyField.ofOpt, PyField.present, hrole]
    · simp [filter_msg_ch, fix_ch, normTcs, PyField.presentNotNull, PyField.getPy,
            PyField.ofOpt, PyField.present, hrole]
    · simp [PyField.getPy] at hget
  · rintro rfl rfl
    simp [filter_msg_ch, fix_ch, normTcs, PyField.presentNotNull, PyField.getPy,
          PyField.ofOpt, PyField.present, hrole]
  · rintro hr rfl rfl
    rcases c with _ | _ | s
    · simp [filter_msg_fc, fix_fc, c0fc, PyField.presentNotNull, PyField.getPy,
            PyField.ofOpt, PyField.present, hrole, hr]
    · simp [filter_msg_fc, fix_fc, c0fc, PyField.presentNotNull, PyField.getPy,
            PyField.ofOpt, PyField.present, hrole, hr]
    · simp [PyField.getPy] at hget
  · rintro rfl rfl rfl
    rcases c with _ | _ | s
    · simp [filter_msg_fc, fix_fc, c0fc, PyField.presentNotNull, PyField.getPy,
            PyField.ofOpt, PyField.present]
    · simp [filter_msg_fc, fix_fc, c0fc, PyField.presentNotNull, PyField.getPy,
            PyField.ofOpt, PyField.present]
    · simp [PyField.getPy] at hget

/-- C8 witness: the amended statement evaluated at a user turn with
absent content and at a tool turn with `None` content. -/
theorem C8_empty_string_substitution_witness :
    filter_msg_ch { role := "user" } = Except.ok
      { role := "user", content := PyField.val "", tool_calls := PyField.absent,
        tool_call_id := PyField.absent, name := PyField.absent } ∧
    filter_msg_fc wToolTurnNullContent = Except.ok
      { role := "tool", content := PyField.absent, tool_calls := PyField.absent,
        tool_call_id := PyField.val "call1",
        name := PyField.val "get_current_datetime" } :=
  ⟨(C8_empty_string_substitution { role := "user" } "x" "y" rfl rfl
      (by decide)).1 rfl,
   ((C8_empty_string_substitution wToolTurnNullContent "call1" "get_current_datetime"
      rfl rfl (by decide)).2.2.2) rfl rfl rfl⟩

/-- A character that is not in the list is at no index. -/
theorem getElem?_ne_of_not_mem {c : Char} {xs : List Char} (hc : c ∉ xs) (k : Nat) :
    xs[k]? ≠ Option.some c := by
  induction xs generalizing k with
  | nil => simp
  | cons x xt ih =>
    cases k with
    | zero =>
      simp only [List.getElem?_cons_zero]
      intro hcon
      apply hc
      simp only [Option.some.injEq] at hcon
      simp [hcon]
    | succ k2 =>
      simp only [List.getElem?_cons_succ]
      exact ih (fun hm => hc (List.mem_cons_of_mem x hm)) k2

/-- `findIdxOpt` misses exactly when the character is absent. -/
theorem findIdxOpt_eq_none_iff (c : Char) (cs : List Char) :
    findIdxOpt c cs = Option.none ↔ c ∉ cs := by
  induction cs with
  | nil => simp [findIdxOpt]
  | cons x xs ih =>
    by_cases hx : x = c
    · subst hx
      simp [findIdxOpt]
    · simp [findIdxOpt, hx, Option.map_eq_none', ih, List.mem_cons, Ne.symm hx]

/-- A hit of `findIdxOpt` is the first occurrence. -/
theorem findIdxOpt_eq_some (c : Char) (cs : List Char) (i : Nat)
    (h : findIdxOpt c cs = Option.some i) :
    cs[i]? = Option.some c ∧ ∀ k, k < i → cs[k]? ≠ Option.some c := by
  induction cs generalizing i with
  | nil => simp [findIdxOpt] at h
  | cons x xs ih =>
    by_cases hx : x = c
    · subst hx
      rw [findIdxOpt, if_pos rfl] at h
      simp only [Option.some.injEq] at h
      subst h
      exact ⟨by simp, fun k hk => absurd hk (Nat.not_lt_zero k)⟩
    · rw [findIdxOpt, if_neg hx] at h
      rcases hfx : findIdxOpt c xs with _ | j <;> rw [hfx] at h
      · simp at h
      · simp only [Option.map_some', Option.some.injEq] at h
        subst h
        obtain ⟨h1, h2⟩ := ih j hfx
        refine ⟨by simpa using h1, ?_⟩
        intro k hk
        cases k with
        | zero =>
          simp only [List.getElem?_cons_zero]
          intro hcon
          simp only [Option.some.injEq] at hcon
          exact hx hcon
        | succ k2 =>
          simpa using h2 k2 (by omega)

/-- `rfindIdxOpt` misses exactly when the character is absent. -/
theorem rfindIdxOpt_eq_none_iff (c : Char) (cs : List Char) :
    rfindIdxOpt c cs = Option.none ↔ c ∉ cs := by
  induction cs with
  | nil => simp [rfindIdxOpt]
  | cons x xs ih =>
    rcases hfx : rfindIdxOpt c xs with _ | j <;> rw [rfindIdxOpt, hfx]
    · by_cases hx : x = c
      · subst hx
        simp [ih.mp hfx]
      · simp [hx, ih.mp hfx, List.mem_cons, Ne.symm hx]
    · have hmem : c ∈ xs := by
        by_contra hc
        rw [ih.mpr hc] at hfx
        cases hfx
      simp [List.mem_cons, hmem]

/-- A hit of `rfindIdxOpt` is the last occurrence. -/
theorem rfindIdxOpt_eq_some (c : Char) (cs : List Char) (j : Nat)
    (h : rfindIdxOpt c cs = Option.some j) :
    cs[j]? = Option.some c ∧ ∀ k, j < k → cs[k]? ≠ Option.some c := by
  induction cs generalizing j with
  | nil => simp [rfindIdxOpt] at h
  | cons x xs ih =>
    rcases hfx : rfindIdxOpt c xs with _ | i <;> rw [rfindIdxOpt, hfx] at h
    · by_cases hx : x = c
      · rw [if_pos hx] at h
        simp only [Option.some.injEq] at h
        subst h
        have hnot : c ∉ xs := (rfindIdxOpt_eq_none_iff c xs).mp hfx
        refine ⟨by simp [hx], ?_⟩
        intro k hk
        cases k with
        | zero => exact absurd hk (Nat.lt_irrefl 0)
        | succ k2 =>
          simp only [List.getElem?_cons_succ]
          exact getElem?_ne_of_not_mem hnot k2
      · rw [if_neg hx] at h
        cases h
    · simp only [Option.some.injEq] at h
      subst h
      obtain ⟨h1, h2⟩ := ih i hfx
      refine ⟨by simpa using h1, ?_⟩
      intro k hk
      cases k with
      | zero => exact absurd hk (Nat.not_lt_zero _)
      | succ k2 =>
        simpa using h2 k2 (by omega)

/-- Unfolding equation: a miss makes `pyFind` return `-1`. -/
theorem pyFind_none (cs : List Char) (c : Char)
    (h : findIdxOpt c cs = Option.none) : pyFind cs c = -1 := by
  unfold pyFind
  rw [h]

/-- Unfolding equation: a hit makes `pyFind` return the index. -/
theorem pyFind_some (cs : List Char) (c : Char) (k : Nat)
    (h : findIdxOpt c cs = Option.some k) : pyFind cs c = (k : Int) := by
  unfold pyFind
  rw [h]

/-- Unfolding equation: a miss makes `pyRFind` return `-1`. -/
theorem pyRFind_none (cs : List Char) (c : Char)
    (h : rfindIdxOpt c cs = Option.none) : pyRFind cs c = -1 := by
  unfold pyRFind
  rw [h]

/-- Unfolding equation: a hit makes `pyRFind` return the index. -/
theorem pyRFind_some (cs : List Char) (c : Char) (k : Nat)
    (h : rfindIdxOpt c cs = Option.some k) : pyRFind cs c = (k : Int) := by
  unfold pyRFind
  rw [h]

/-- A `pyFind` result that is a natural number comes from a hit. -/
theorem pyFind_eq_coe (cs : List Char) (c : Char) (i : Nat)
    (h : pyFind cs c = (i : Int)) : findIdxOpt c cs = Option.some i := by
  rcases hfx : findIdxOpt c cs with _ | k
  · rw [pyFind_none cs c hfx] at h
    exact absurd h (by omega)
  · rw [pyFind_some cs c k hfx] at h
    have hk : k = i := by exact_mod_cast h
    rw [hk]

/-- `pyFind` returns `-1` exactly when the character is absent. -/
theorem pyFind_eq_neg_one_iff (cs : List Char) (c : Char) :
    pyFind cs c = -1 ↔ c ∉ cs := by
  rcases hfx : findIdxOpt c cs with _ | k
  · rw [pyFind_none cs c hfx]
    simp [(findIdxOpt_eq_none_iff c cs).mp hfx]
  · rw [pyFind_some cs c k hfx]
    have hk : c ∈ cs := by
      by_contra hc
      rw [(findIdxOpt_eq_none_iff c cs).mpr hc] at hfx
      cases hfx
    constructor
    · intro hcon
      exact absurd hcon (by omega)
    · intro hcon
      exact absurd hk hcon

/-- A `pyRFind` result that is a natural number comes from a hit. -/
theorem pyRFind_eq_coe (cs : List Char) (c : Char) (j : Nat)
    (h : pyRFind cs c = (j : Int)) : rfindIdxOpt c cs = Option.some j := by
  rcases hfx : rfindIdxOpt c cs with _ | k
  · rw [pyRFind_none cs c hfx] at h
    exact absurd h (by omega)
  · rw [pyRFind_some cs c k hfx] at h
    have hk : k = j := by exact_mod_cast h
    rw [hk]

/-- `pyRFind` returns `-1` exactly when the character is absent. -/
theorem pyRFind_eq_neg_one_iff (cs : List Char) (c : Char) :
    pyRFind cs c = -1 ↔ c ∉ cs := by
  rcases hfx : rfindIdxOpt c cs with _ | k
  · rw [pyRFind_none cs c hfx]
    simp [(rfindIdxOpt_eq_none_iff c cs).mp hfx]
  · rw [pyRFind_some cs c k hfx]
    have hk : c ∈ cs := by
      by_contra hc
      rw [(rfindIdxOpt_eq_none_iff c cs).mpr hc] at hfx
      cases hfx
    constructor
    · intro hcon
      exact absurd hcon (by omega)
    · intro hcon
      exact absurd hk hcon

/-- C7: the evaluator's parsing step takes the substring from the first
opening curly brace to the last closing one inclusive and hands it to the
JSON parser, yielding the parsed object on success; when no such brace
pair exists (no opening brace, no closing brace, or the last closing
brace before the first opening one) or when JSON parsing fails, it yields
a ParseFailure record carrying the original raw text verbatim; and on a
successful API response `evaluate_response` returns this parse result,
never letting an exception escape. -/
theorem C7_evaluator_parse (J : Type) (jl : String → Option J) (content : String)
    (i j : Nat) (c : Client) (uq ar : String) (tcs : Option (List ToolCall)) :
    (pyFind content.data '\x7b' = (i : Int) →
      content.data[i]? = Option.some '\x7b' ∧
      ∀ k, k < i → content.data[k]? ≠ Option.some '\x7b') ∧
    (pyRFind content.data '\x7d' = (j : Int) →
      content.data[j]? = Option.some '\x7d' ∧
      ∀ k, j < k → content.data[k]? ≠ Option.some '\x7d') ∧
    (pyFind content.data '\x7b' = (i : Int) →
     pyRFind content.data '\x7d' = (j : Int) → i ≤ j →
      parse_evaluation jl content =
        (match jl (String.mk (pySlice content.data (i : Int) ((j : Int) + 1))) with
         | Option.some v => EvalResult.parsed v
         | Option.none => EvalResult.parseFailure "Failed to parse JSON" content)) ∧
    ('\x7b' ∉ content.data →
      parse_evaluation jl content
        = EvalResult.parseFailure "Failed to parse JSON, block not found" content) ∧
    ('\x7d' ∉ content.data →
      parse_evaluation jl content
        = EvalResult.parseFailure "Failed to parse JSON, block not found" content) ∧
    (pyFind content.data '\x7b' = (i : Int) →
     pyRFind content.data '\x7d' = (j : Int) → j < i →
      parse_evaluation jl content
        = EvalResult.parseFailure "Failed to parse JSON, block not found" content) ∧
    (evaluate_response (Option.some c) uq ar
        (ApiOutcome.success { content := Option.some content, tool_calls := tcs }) jl
      = { result := EvalOut.ret (parse_evaluation jl content), calls := 1 }) := by
  refine ⟨?_, ?_, ?_, ?_, ?_, ?_, ?_⟩
  · intro hfind
    exact findIdxOpt_eq_some '\x7b' content.data i (pyFind_eq_coe _ _ _ hfind)
  · intro hrfind
    exact rfindIdxOpt_eq_some '\x7d' content.data j (pyRFind_eq_coe _ _ _ hrfind)
  · intro hfind hrfind hij
    unfold parse_evaluation
    dsimp only
    rw [hfind, hrfind, if_pos ⟨by omega, by omega, by omega⟩]
  · intro hb
    unfold parse_evaluation
    dsimp only
    rw [if_neg]
    rintro ⟨h1, h2, h3⟩
    exact h1 ((pyFind_eq_neg_one_iff content.data '\x7b').mpr hb)
  · intro hb
    unfold parse_evaluation
    dsimp only
    rw [if_neg]
    rintro ⟨h1, h2, h3⟩
    rw [(pyRFind_eq_neg_one_iff content.data '\x7d').mpr hb] at h2
    exact h2 (by norm_num)
  · intro hfind hrfind hji
    unfold parse_evaluation
    dsimp only
    rw [if_neg]
    rintro ⟨h1, h2, h3⟩
    rw [hfind, hrfind] at h3
    omega
  · rfl

/-- Text containing a JSON-looking block between stray characters. -/
def wEvalText : String := "x\x7ba\x7dy"

/-- C7 witness: the parse characterization evaluated at concrete texts —
one with a brace pair at indices 1 and 3 (parsed), one with no braces
(ParseFailure carrying the raw text). -/
theorem C7_evaluator_parse_witness :
    parse_evaluation (fun _ => Option.some ()) wEvalText = EvalResult.parsed () ∧
    parse_evaluation (fun _ => Option.some ()) "nobraces"
      = EvalResult.parseFailure "Failed to parse JSON, block not found" "nobraces" := by
  constructor
  · exact ((C7_evaluator_parse Unit (fun _ => Option.some ()) wEvalText 1 3 Client.mk
      "q" "r" Option.none).2.2.1 rfl rfl (by omega)).trans rfl
  · exact (C7_evaluator_parse Unit (fun _ => Option.some ()) "nobraces" 0 0 Client.mk
      "q" "r" Option.none).2.2.2.1 (by decide)

/-- The `tool_calls` normalization of the chat_history filter is stable. -/
theorem normTcs_idem (t : PyField (List TCVal)) : normTcs (normTcs t) = normTcs t := by
  rcases t with _ | _ | l <;> rfl

/-- Re-reading a present key through `get` reproduces its value. -/
theorem ofOpt_getPy (c : PyField String) (hc : c ≠ PyField.absent) :
    PyField.ofOpt c.getPy = c := by
  rcases c with _ | _ | s
  · exact absurd rfl hc
  · rfl
  · rfl

/-- `ofOpt` always materializes the key. -/
theorem ofOpt_ne_absent (o : Option String) : PyField.ofOpt o ≠ PyField.absent := by
  rcases o with _ | a <;> exact fun hcon => PyField.noConfusion hcon

/-- The chat_history content fix-up keeps the key present. -/
theorem fix_ch_ne_absent (r : String) (c : PyField String) (t : PyField (List TCVal))
    (hc : c ≠ PyField.absent) : fix_ch r c t ≠ PyField.absent := by
  unfold fix_ch
  split
  · exact fun hcon => PyField.noConfusion hcon
  · exact hc

/-- The chat_history content fix-up is idempotent. -/
theorem fix_ch_idem (r : String) (c : PyField String) (t : PyField (List TCVal)) :
    fix_ch r (fix_ch r c t) t = fix_ch r c t := by
  by_cases hP : (r ≠ "assistant" ∧ c.getPy = Option.none ∧ t.present = false)
  · have h1 : fix_ch r c t = PyField.val "" := by rw [fix_ch, if_pos hP]
    rw [h1, fix_ch, if_neg]
    rintro ⟨g1, g2, g3⟩
    simp [PyField.getPy] at g2
  · have h1 : fix_ch r c t = c := by rw [fix_ch, if_neg hP]
    rw [h1]
    exact h1

/-- Computation of the chat_history filter when `tool_call_id` is
present and non-null and the content key exists. -/
theorem filter_msg_ch_tcid (r : String) (c : PyField String) (t : PyField (List TCVal))
    (tiv : String) (nm : PyField String) (hc : c ≠ PyField.absent) :
    filter_msg_ch ⟨r, c, t, PyField.val tiv, nm⟩ =
      Except.ok ⟨r, fix_ch r c (normTcs t), normTcs t, PyField.val tiv, PyField.absent⟩ := by
  rcases c with _ | _ | s
  · exact absurd rfl hc
  · rfl
  · rfl

/-- Computation of the chat_history filter when `tool_call_id` is
present and non-null but the content key is missing: `KeyError`. -/
theorem filter_msg_ch_tcid_absent (r : String) (t : PyField (List TCVal))
    (tiv : String) (nm : PyField String) :
    filter_msg_ch ⟨r, PyField.absent, t, PyField.val tiv, nm⟩ =
      Except.error (PyExc.keyError "content") := rfl

/-- Computation of the chat_history filter when `tool_call_id` is absent
or null. -/
theorem filter_msg_ch_plain (r : String) (c : PyField String) (t : PyField (List TCVal))
    (ti nm : PyField String) (hti : ti.presentNotNull = false) :
    filter_msg_ch ⟨r, c, t, ti, nm⟩ =
      Except.ok ⟨r, fix_ch r (PyField.ofOpt c.getPy) (normTcs t), normTcs t,
                 PyField.absent, PyField.absent⟩ := by
  rcases ti with _ | _ | tiv
  · rfl
  · rfl
  · simp [PyField.presentNotNull] at hti

/-- Applying the chat_history filter to one of its own outputs reproduces
the output. -/
theorem filter_msg_ch_idem (m m2 : Msg) (h : filter_msg_ch m = Except.ok m2) :
    filter_msg_ch m2 = Except.ok m2 := by
  obtain ⟨r, c, t, ti, nm⟩ := m
  rcases ti with _ | _ | tiv
  · rw [filter_msg_ch_plain r c t PyField.absent nm rfl] at h
    injection h with h2
    subst h2
    rw [filter_msg_ch_plain r _ _ PyField.absent PyField.absent rfl,
        normTcs_idem,
        ofOpt_getPy _ (fix_ch_ne_absent r _ _ (ofOpt_ne_absent c.getPy)),
        fix_ch_idem]
  · rw [filter_msg_ch_plain r c t PyField.null nm rfl] at h
    injection h with h2
    subst h2
    rw [filter_msg_ch_plain r _ _ PyField.absent PyField.absent rfl,
        normTcs_idem,
        ofOpt_getPy _ (fix_ch_ne_absent r _ _ (ofOpt_ne_absent c.getPy)),
        fix_ch_idem]
  · rcases c with _ | _ | s
    · rw [filter_msg_ch_tcid_absent r t tiv nm] at h
      cases h
    · rw [filter_msg_ch_tcid r PyField.null t tiv nm
          (fun hcon => PyField.noConfusion hcon)] at h
      injection h with h2
      subst h2
      rw [filter_msg_ch_tcid r _ _ tiv PyField.absent
          (fix_ch_ne_absent r _ _ (fun hcon => PyField.noConfusion hcon)),
          normTcs_idem, fix_ch_idem]
    · rw [filter_msg_ch_tcid r (PyField.val s) t tiv nm
          (fun hcon => PyField.noConfusion hcon)] at h
      injection h with h2
      subst h2
      rw [filter_msg_ch_tcid r _ _ tiv PyField.absent
          (fix_ch_ne_absent r _ _ (fun hcon => PyField.noConfusion hcon)),
          normTcs_idem, fix_ch_idem]

/-- Computation of the function_calling filter for a non-tool role when
the `tool_calls` entry is missing or an empty list. -/
theorem filter_msg_fc_notool (r : String) (c : PyField String) (t : PyField (List TCVal))
    (ti nm : PyField String) (hr : r ≠ "tool")
    (ht : t = PyField.absent ∨ t = PyField.val []) :
    filter_msg_fc ⟨r, c, t, ti, nm⟩ =
      Except.ok ⟨r, fix_fc ⟨r, c, t, ti, nm⟩ (c0fc c) t, t,
                 PyField.absent, PyField.absent⟩ := by
  rcases ht with rfl | rfl <;>
    · unfold filter_msg_fc
      dsimp only [mapExc]
      rw [if_neg hr]

/-- Computation of the function_calling filter for a tool turn with
`tool_call_id` and `name` keys present, when the `tool_calls` entry is
missing or an empty list. -/
theorem filter_msg_fc_tool (c : PyField String) (t : PyField (List TCVal))
    (ti nm : PyField String) (hti : ti ≠ PyField.absent) (hnm : nm ≠ PyField.absent)
    (ht : t = PyField.absent ∨ t = PyField.val []) :
    filter_msg_fc ⟨"tool", c, t, ti, nm⟩ =
      Except.ok ⟨"tool", fix_fc ⟨"tool", c, t, ti, nm⟩ (c0fc c) t, t, ti, nm⟩ := by
  rcases ht with rfl | rfl <;>
    rcases ti with _ | _ | tiv <;>
      first
        | exact absurd rfl hti
        | (rcases nm with _ | _ | nmv <;>
            first
              | exact absurd rfl hnm
              | rfl)

/-- Computation of the function_calling filter for a tool turn lacking
the `tool_call_id` key: `KeyError`. -/
theorem filter_msg_fc_tool_err1 (c : PyField String) (t : PyField (List TCVal))
    (nm : PyField String) (ht : t = PyField.absent ∨ t = PyField.val []) :
    filter_msg_fc ⟨"tool", c, t, PyField.absent, nm⟩ =
      Except.error (PyExc.keyError "tool_call_id") := by
  rcases ht with rfl | rfl <;> rfl

/-- Computation of the function_calling filter for a tool turn lacking
the `name` key: `KeyError`. -/
theorem filter_msg_fc_tool_err2 (c : PyField String) (t : PyField (List TCVal))
    (ti : PyField String) (hti : ti ≠ PyField.absent)
    (ht : t = PyField.absent ∨ t = PyField.val []) :
    filter_msg_fc ⟨"tool", c, t, ti, PyField.absent⟩ =
      Except.error (PyExc.keyError "name") := by
  rcases ht with rfl | rfl <;> rcases ti with _ | _ | tiv <;>
    first
      | exact absurd rfl hti
      | rfl

/-- The function_calling content fix-up is idempotent over outputs whose
`tool_calls` value was preserved (absent or an empty list). -/
theorem fix_fc_idem (r : String) (c : PyField String) (t : PyField (List TCVal))
    (ti nm TI NM : PyField String) :
    fix_fc ⟨r, fix_fc ⟨r, c, t, ti, nm⟩ (c0fc c) t, t, TI, NM⟩
        (c0fc (fix_fc ⟨r, c, t, ti, nm⟩ (c0fc c) t)) t
      = fix_fc ⟨r, c, t, ti, nm⟩ (c0fc c) t := by
  rcases c with _ | _ | s <;> rcases t with _ | _ | l <;>
    by_cases hra : r = "assistant" <;>
      by_cases hrt : r = "tool" <;>
        simp [fix_fc, c0fc, PyField.getPy, PyField.present, hra, hrt]

/-- Applying the function_calling filter to one of its own outputs
reproduces the output, provided the turn's `tool_calls` entry was missing
or an empty list. -/
theorem filter_msg_fc_idem (m m2 : Msg)
    (hside : m.tool_calls = PyField.absent ∨ m.tool_calls = PyField.val [])
    (h : filter_msg_fc m = Except.ok m2) :
    filter_msg_fc m2 = Except.ok m2 := by
  obtain ⟨r, c, t, ti, nm⟩ := m
  simp only at hside
  by_cases hrt : r = "tool"
  · subst hrt
    rcases ti with _ | _ | tiv
    · rw [filter_msg_fc_tool_err1 c t nm hside] at h
      cases h
    · rcases nm with _ | _ | nmv
      · rw [filter_msg_fc_tool_err2 c t PyField.null
            (fun hcon => PyField.noConfusion hcon) hside] at h
        cases h
      · rw [filter_msg_fc_tool c t PyField.null PyField.null
            (fun hcon => PyField.noConfusion hcon)
            (fun hcon => PyField.noConfusion hcon) hside] at h
        injection h with h2
        subst h2
        rw [filter_msg_fc_tool _ t PyField.null PyField.null
            (fun hcon => PyField.noConfusion hcon)
            (fun hcon => PyField.noConfusion hcon) hside]
        rw [fix_fc_idem]
      · rw [filter_msg_fc_tool c t PyField.null (PyField.val nmv)
            (fun hcon => PyField.noConfusion hcon)
            (fun hcon => PyField.noConfusion hcon) hside] at h
        injection h with h2
        subst h2
        rw [filter_msg_fc_tool _ t PyField.null (PyField.val nmv)
            (fun hcon => PyField.noConfusion hcon)
            (fun hcon => PyField.noConfusion hcon) hside]
        rw [fix_fc_idem]
    · rcases nm with _ | _ | nmv
      · rw [filter_msg_fc_tool_err2 c t (PyField.val tiv)
            (fun hcon => PyField.noConfusion hcon) hside] at h
        cases h
      · rw [filter_msg_fc_tool c t (PyField.val tiv) PyField.null
            (fun hcon => PyField.noConfusion hcon)
            (fun hcon => PyField.noConfusion hcon) hside] at h
        injection h with h2
        subst h2
        rw [filter_msg_fc_tool _ t (PyField.val tiv) PyField.null
            (fun hcon => PyField.noConfusion hcon)
            (fun hcon => PyField.noConfusion hcon) hside]
        rw [fix_fc_idem]
      · rw [filter_msg_fc_tool c t (PyField.val tiv) (PyField.val nmv)
            (fun hcon => PyField.noConfusion hcon)
            (fun hcon => PyField.noConfusion hcon) hside] at h
        injection h with h2
        subst h2
        rw [filter_msg_fc_tool _ t (PyField.val tiv) (PyField.val nmv)
            (fun hcon => PyField.noConfusion hcon)
            (fun hcon => PyField.noConfusion hcon) hside]
        rw [fix_fc_idem]
  · rw [filter_msg_fc_notool r c t ti nm hrt hside] at h
    injection h with h2
    subst h2
    rw [filter_msg_fc_notool r _ t PyField.absent PyField.absent hrt hside]
    rw [fix_fc_idem]

/-- Every element of a successful loop output comes from some input
element. -/
theorem mapExc_mem_exists {α β ε : Type} (f : α → Except ε β) (xs : List α) (ys : List β)
    (h : mapExc f xs = Except.ok ys) (y : β) (hy : y ∈ ys) :
    ∃ x, x ∈ xs ∧ f x = Except.ok y := by
  induction xs generalizing ys with
  | nil =>
    simp only [mapExc, Except.ok.injEq] at h
    subst h
    simp at hy
  | cons x xt ih =>
    simp only [mapExc] at h
    rcases hfx : f x with e | y0 <;> rw [hfx] at h
    · simp at h
    · rcases hxt : mapExc f xt with e | yt <;> rw [hxt] at h
      · simp at h
      · simp only [Except.ok.injEq] at h
        subst h
        rcases List.mem_cons.mp hy with rfl | hmem
        · exact ⟨x, List.mem_cons_self x xt, hfx⟩
        · obtain ⟨x2, hx2, hfx2⟩ := ih yt hxt hmem
          exact ⟨x2, List.mem_cons_of_mem x hx2, hfx2⟩

/-- An assistant turn recording one tool-call request, as the driver
stores it (SDK object inside). -/
def wAsstToolCallTurn : Msg :=
  { role := "assistant", content := PyField.null,
    tool_calls := PyField.val [TCVal.obj wTC] }

/-- The wire record the function_calling normalizer makes of it (plain
dict inside). -/
def wAsstToolCallWire : Msg :=
  { role := "assistant", content := PyField.null,
    tool_calls := PyField.val [TCVal.dict wTC] }

/-- C3 counterexample: the function_calling implementation of the message
normalizer is not idempotent — applied to its own output for an
assistant-with-tool-calls turn it raises `AttributeError` (the reshaped
tool-call entries are plain dicts, and `tc.id` is an attribute access)
instead of returning the output unchanged. -/
theorem C3_counterexample :
    filter_messages_for_api_fc [wAsstToolCallTurn] = Except.ok [wAsstToolCallWire] ∧
    filter_messages_for_api_fc [wAsstToolCallWire]
      = Except.error (PyExc.attributeError "id") := by
  exact ⟨rfl, rfl⟩

/-- C3 amended: the chat_history implementation is idempotent whenever it
succeeds — its output normalizes to itself; the function_calling
implementation is idempotent on histories whose turns carry no
`tool_calls` entry (or an empty tool-call list), but applied to an output
holding a reshaped non-empty tool-call list it raises `AttributeError`
instead. -/
theorem C3_normalizer_idempotent (xs ys : List Msg) :
    (filter_messages_for_api xs = Except.ok ys →
      filter_messages_for_api ys = Except.ok ys) ∧
    ((∀ m, m ∈ xs → m.tool_calls = PyField.absent ∨ m.tool_calls = PyField.val []) →
      filter_messages_for_api_fc xs = Except.ok ys →
      filter_messages_for_api_fc ys = Except.ok ys) := by
  constructor
  · intro h
    apply mapExc_fixed
    intro y hy
    obtain ⟨x, hx, hfx⟩ := mapExc_mem_exists filter_msg_ch xs ys h y hy
    exact filter_msg_ch_idem x y hfx
  · intro hside h
    apply mapExc_fixed
    intro y hy
    obtain ⟨x, hx, hfx⟩ := mapExc_mem_exists filter_msg_fc xs ys h y hy
    exact filter_msg_fc_idem x y (hside x hx) hfx

/-- C3 witness: the amended statement evaluated at a concrete
two-turn history without tool calls, for both implementations. -/
theorem C3_normalizer_idempotent_witness :
    filter_messages_for_api [userMsg "hi", assistantMsg (Option.some "hello")]
      = Except.ok [userMsg "hi", assistantMsg (Option.some "hello")] ∧
    filter_messages_for_api_fc [userMsg "hi", assistantMsg (Option.some "hello")]
      = Except.ok [userMsg "hi", assistantMsg (Option.some "hello")] :=
  ⟨(C3_normalizer_idempotent [userMsg "hi", assistantMsg (Option.some "hello")]
      [userMsg "hi", assistantMsg (Option.some "hello")]).1 rfl,
   (C3_normalizer_idempotent [userMsg "hi", assistantMsg (Option.some "hello")]
      [userMsg "hi", assistantMsg (Option.some "hello")]).2
      (by decide) rfl⟩
